import Mathlib

set_option maxRecDepth 100000

/-!
Verification development for the Tequila build/shipment PDF processor
(`apppruebabolsas.py`).  The extraction and aggregation pipeline is embedded
shallowly: page texts are plain strings (PDF text extraction is an external
collaborator), Python regular-expression searches are embedded as explicit
scanners over `List Char`, Python dictionaries as association lists that
preserve insertion order, and Python `int` as `Int`.

All inputs handled by the program are ASCII, so Python's Unicode-aware
character classes (`\w`, `\s`, `str.upper`) are embedded by their ASCII
behaviour.
-/

/-- Python `\w` (word character) on ASCII input: letters, digits, underscore.
The hyphen is NOT a word character. -/
def isWordChar (c : Char) : Bool := c.isAlphanum || c == '_'

/-- Python `\s` (whitespace) on ASCII input. -/
def isSpaceP (c : Char) : Bool :=
  c == ' ' || c == '\t' || c == '\n' || c == '\x0d' || c == '\x0c' || c == '\x0b'

/-- `str.upper()` on ASCII input, character by character. -/
def toUpperL (l : List Char) : List Char := l.map Char.toUpper

/-- `\b` immediately before a pattern whose first character is a word
character: position `i` of `t` is preceded by nothing or by a non-word
character.  (All part-code patterns below start with an ASCII letter, so the
two-sided xor definition of `\b` degenerates to this test.) -/
def boundaryAt (t : List Char) (i : Nat) : Bool :=
  match i with
  | 0 => true
  | j + 1 =>
    match t.get? j with
    | some c => !isWordChar c
    | none => true

/-- One step of the regex engine for patterns of the shape
`literal key` followed by a greedy character-class star `ext*`
(`\S*` or `[^\s\-]*`), optionally anchored by a leading `\b` (`bnd`).
`re.finditer` semantics: scan left to right, emit the leftmost match, continue
scanning at the end of the match (one past it for an empty match).  `fuel`
only bounds the recursion; the scan index strictly increases each step, and
`fuel = t.length` always suffices, so the cut-off is never hit before the
index leaves the text. -/
def scanAux (t key : List Char) (bnd : Bool) (ext : Char → Bool) :
    Nat → Nat → List (Nat × Nat)
  | 0, _ => []
  | fuel + 1, i =>
    if i < t.length then
      if (!bnd || boundaryAt t i) && key.isPrefixOf (t.drop i) then
        let e := i + key.length + ((t.drop (i + key.length)).takeWhile ext).length
        (i, e) :: scanAux t key bnd ext fuel (max (i + 1) e)
      else
        scanAux t key bnd ext fuel (i + 1)
    else []

/-- All matches (as half-open index ranges) of `\b? key ext*` in `t`,
in `re.finditer` order. -/
def reScan (t key : List Char) (bnd : Bool) (ext : Char → Bool) : List (Nat × Nat) :=
  scanAux t key bnd ext t.length 0

/-- Insertion-ordered association-list lookup (Python `dict` access). -/
def lookupA {α : Type} : List (String × α) → String → Option α
  | [], _ => none
  | (k, v) :: rest, key => if k = key then some v else lookupA rest key

/-- Update an insertion-ordered association list at a key: overwrite in place
if present, append otherwise (Python `dict` assignment / `defaultdict`). -/
def updateA {α : Type} : List (String × α) → String → α → List (String × α)
  | [], k, v => [(k, v)]
  | (k', v') :: rest, k, v =>
    if k' = k then (k, v) :: rest else (k', v') :: updateA rest k v

/-- `defaultdict(int)` increment: `d[k] += q`, a missing key starting at 0 and
being appended in insertion order. -/
def incrCount : List (String × Int) → String → Int → List (String × Int)
  | [], k, q => [(k, q)]
  | (k', v) :: rest, k, q =>
    if k' = k then (k', v + q) :: rest else (k', v) :: incrCount rest k q

/-- Read a count out of a `defaultdict(int)`-style association list. -/
def getCount (cs : List (String × Int)) (k : String) : Int :=
  (lookupA cs k).getD 0

/-- The static catalog `PART_DESCRIPTIONS`, in source (dict-insertion) order.
The Python literal has no duplicate keys, so the list is the dict verbatim. -/
def PART_DESCRIPTIONS : List (String × String) := [
  ("B-PG-081-BLK", "2023 PXG Deluxe Cart Bag - Black"),
  ("B-PG-082-WHT", "2023 PXG Lightweight Cart Bag - White/Black"),
  ("B-PG-172", "2025 Stars & Stripes LW Carry Stand Bag"),
  ("B-PG-172-BGRY", "Xtreme Carry Stand Bag - Black"),
  ("B-PG-172-BLACK", "Xtreme Carry Stand Bag - Freedom - Black"),
  ("B-PG-172-DB", "Deluxe Carry Stand Bag - Black"),
  ("B-PG-172-DKNSS", "Deluxe Carry Stand Bag - Darkness"),
  ("B-PG-172-DW", "Deluxe Carry Stand Bag - White"),
  ("B-PG-172-GREEN", "Xtreme Carry Stand Bag - Freedom - Green"),
  ("B-PG-172-GREY", "Xtreme Carry Stand Bag - Freedom - Grey"),
  ("B-PG-172-NAVY", "Xtreme Carry Stand Bag - Freedom - Navy"),
  ("B-PG-172-TAN", "Xtreme Carry Stand Bag - Freedom - Tan"),
  ("B-PG-172-WBLK", "Xtreme Carry Stand Bag - White"),
  ("B-PG-173", "2025 Stars & Stripes Hybrid Stand Bag"),
  ("B-PG-173-BGRY", "Xtreme Hybrid Stand Bag - Black"),
  ("B-PG-173-BO", "Deluxe Hybrid Stand Bag - Black"),
  ("B-PG-173-DKNSS", "Deluxe Hybrid Stand Bag - Darkness"),
  ("B-PG-173-WBLK", "Xtreme Hybrid Stand Bag - White"),
  ("B-PG-173-WO", "Deluxe Hybrid Stand Bag - White"),
  ("B-PG-244", "Xtreme Cart Bag - White"),
  ("B-PG-245", "2025 Stars & Stripes Cart Bag"),
  ("B-PG-245-BLK", "Deluxe Cart Bag B2 - Black"),
  ("B-PG-245-WHT", "Deluxe Cart Bag B2 - White"),
  ("B-PG-246-POLY", "Minimalist Carry Stand Bag - Black"),
  ("B-UGB8-EP", "2020 Carry Stand Bag - Black"),
  ("B-UGB14-FM", "PXG Sunday Stand Bag - Black/White"),
  ("B-UGB2-EP", "2020 Tour Bag- Black"),
  ("B-UGB13-EP-B", "Den Caddy- Black"),
  ("GB-DOZ-XTREME", "Xtreme Golf Ball - Dozen"),
  ("GB-DOZ-XTTR-WHT", "Xtreme Tour Golf Ball - White - Dozen"),
  ("GB-DOZ-XTTR-YEL", "Xtreme Tour Golf Ball - Yellow - Dozen"),
  ("GB-DOZ-XTTRX-WHT", "Xtreme Tour X Golf Ball - White - Dozen"),
  ("H-22PXG000013-BLK", "Tall Visor - Black"),
  ("H-22PXG000013-WHT", "Tall Visor - White"),
  ("H-22PXG000014-BLK", "Sport Visor - Black"),
  ("H-22PXG000014-WHT", "Sport Visor - White"),
  ("H-23PXG0000124-2-GB-OSFM", "Dog Tag 6-Panel Snapback Cap - Grey/Black Logo - One Size"),
  ("H-23PXG0000124-2-BG-OSFM", "Dog Tag 6-Panel Snapback Cap - Black/Grey Logo - One Size"),
  ("H-23PXG0000124-2-BW-OSFM", "Dog Tag 6-Panel Snapback Cap - Black/White Logo - One Size"),
  ("H-23PXG0000124-2-CG-OSFM", "Dog Tag 6-Panel Snapback Cap - White/Grey Logo - One Size"),
  ("H-23PXG0000124-2-WG-OSFM", "Dog Tag 6-Panel Snapback Cap - White/Grey Logo - One Size"),
  ("H-23PXG000078-1-S-M", "Tour Bush Hat - White - S/M"),
  ("H-23PXG000094-1-OSFM-BLK", "Faceted Front Trucker Cap - Black - One Size"),
  ("H-23PXG000094-1-OSFM-WHT", "Faceted Front Trucker Cap - White - One Size"),
  ("H-23PXG000101-BW-OSFM", "Men\x27s 6-Panel High Crown Snapback Cap - Black/White Logo - One Size"),
  ("H-23PXG000101-NW-OSFM", "Men\x27s 6-Panel High Crown Snapback Cap - Navy/White Logo - One Size"),
  ("H-23PXG000101-WB-OSFM", "Men\x27s 6-Panel High Crown Snapback Cap - White/Black Logo - One Size"),
  ("H-23PXG000101-WG-OSFM", "Men\x27s 6-Panel High Crown Snapback Cap - White/Grey Logo - One Size"),
  ("H-23PXG000123-BG-OSFM", "Men\x27s Dog Tag 6-Panel High Crown Snapback Cap - Black/Grey Logo - One Size"),
  ("H-23PXG000123-BW-OSFM", "Men\x27s Dog Tag 6-Panel High Crown Snapback Cap - Black/White Logo - One Size"),
  ("H-23PXG000123-GB-OSFM", "Men\x27s Dog Tag 6-Panel High Crown Snapback Cap - Grey/Black Logo - One Size"),
  ("H-23PXG000123-WG-OSFM", "Men\x27s Dog Tag 6-Panel High Crown Snapback Cap - White/Grey Logo - One Size"),
  ("H-23PXG000125-WN-OSFM", "Men\x27s Dog Tag 5-Panel Snapback Cap - White/Navy Logo - One Size"),
  ("H-23PXG000125-BG-OSFM", "Men\x27s Dog Tag 5-Panel Snapback Cap - Black/Grey Logo - One Size"),
  ("H-23PXG000125-BW-OSFM", "Men\x27s Dog Tag 5-Panel Snapback Cap - Black/White Logo - One Size"),
  ("H-23PXG000125-GB-OSFM", "Men\x27s Dog Tag 5-Panel Snapback Cap - Grey/Black Logo - One Size"),
  ("H-23PXG000125-NW-OSFM", "Men\x27s Dog Tag 5-Panel Snapback Cap - Navy/White Logo - One Size"),
  ("H-23PXG000125-WG-OSFM", "Men\x27s Dog Tag 5-Panel Snapback Cap - White/Grey Logo - One Size"),
  ("H-23PXG000126-WN-OSFM", "Stretch Snapback Hat - White - One Size"),
  ("H-23PXG000166-BLK-OSFM", "Stretch Snapback Hat - Black - One Size"),
  ("H-23PXG000166-WHT-OSFM", "Stretch Snapback Hat - White - One Size"),
  ("H-23PXG000167-WB-OSFM", "Scottsdale Trucker Snapback Hat - White/Blue Logo - One Size"),
  ("H-23PXG000167-BW-OSFM", "Scottsdale Trucker Snapback Hat - Black/White Logo - One Size"),
  ("H-23PXG000167-GB-OSFM", "Scottsdale Trucker Snapback Hat - Grey/Black Logo - One Size"),
  ("H-23PXG000167-WHT-OSFM", "Scottsdale Trucker Snapback Hat - White - One Size"),
  ("H-23PXG000167-WW-OSFM", "Scottsdale Trucker Snapback Hat - White/White Logo - One Size"),
  ("H-23PXG000168-BLK-OSFM", "Stretch Patch Snapback Hat - Black - One Size"),
  ("H-23PXG000168-GRY-OSFM", "Stretch Patch Snapback Hat - Grey - One Size"),
  ("H-23PXG000168-NVY-OSFM", "Stretch Patch Snapback Hat - Navy - One Size"),
  ("H-23PXG000168-WHT-OSFM", "Stretch Patch Snapback Hat - White - One Size"),
  ("H-24PXG000203-2-BLK-OSFM", "Women\x27s Metallic Minimalist - Unstructured Hat - Black - One Size"),
  ("H-24PXG000203-2-WHT-OSFM", "Women\x27s Metallic Minimalist - Unstructured Hat - White - One Size"),
  ("H-24PXG000214-1-BLK-OSFM", "Camper Flat Bill Snapback Cap - Black - One Size"),
  ("H-24PXG000214-1-WHT-OSFM", "Camper Flat Bill Snapback Cap - White - One Size"),
  ("H-24PXG000218-1-OSFM", "6 Panel Structured Low Crown Snapback Cap - Black - One Size"),
  ("H-24PXG000219-OSFM", "Women\x27s Metallic Minimalist - Unstructured Hat - Grey - One Size"),
  ("H-24PXG000229-OSFM", "US Navy Structured Hat Snapback - One Size"),
  ("H-24PXG000235-BW-OSFM", "Dog Tag 6-Panel Low Crown Snapback - Black/White Logo - One Size"),
  ("H-24PXG000235-GB-OSFM", "Dog Tag 6-Panel Low Crown Snapback - Grey/Black Logo - One Size"),
  ("H-24PXG000235-WG-OSFM", "Dog Tag 6-Panel Low Crown Snapback - White/Grey Logo - One Size"),
  ("H-24PXG000239-OSFM", "Women\x27s Metallic Minimalist - Unstructured Hat - Light Blue - One Size"),
  ("H-24PXG000276-OSFM", "2025 Stars & Stripes Low Crown Cap - One Size"),
  ("H-24PXG000277-OSFM", "2025 Stars & Stripes Dog Tag Cap - One Size"),
  ("H-24PXG000278-OSFM", "2025 Stars & Stripes High Crown Cap - One Size"),
  ("H-25PXG000282-OSFM", "2025 Stars & Stripes Trucker Cap - One Size"),
  ("H-24PXG000282-OSFM", "2025 Stars & Stripes Trucker Cap - One Size"),
  ("H-25PXG000283-OSFM", "2025 Stars & Stripes Dog Tag Trucker - One Size"),
  ("H-USMC-ADJ", "PXG USMC Unstructured Hat - Adjustable"),
  ("A-UAC18-FM", "PXG Wedge Brush - Chrome"),
  ("A-UAC17-FM", "PXG Wedge Brush - Black"),
  ("A-ALIGNSTICKS-WHT", "PXG Player Alignment Sticks - White"),
  ("A-NX10SLOPE-PXG", "PXG NX10 Rangefinder Slope Edition - White"),
  ("A-UAC28-FM", "PXG Milled Divot Tool (Weighted)"),
  ("A-IHC62918PXG-COP", "PXG Magnetic Ball Marker & Cap Clip - Rose Gold"),
  ("A-IHC62920PXG-BLK", "PXG Magnetic Ball Marker & Cap Clip - Black"),
  ("A-DUO-PXG", "PXG Golf Speaker - White"),
  ("A-ICU55715PXG-ALS", "PXG Deluxe Alignment Stick Cover"),
  ("A-DARKNESS-COASTER", "PXG Darkness Coaster"),
  ("HC-JT-1053-KIT", "PXG 2022 Iron Cover Kit"),
  ("A-UAC29-FM", "PXG (DRKNSS) Divot Tool"),
  ("A-Q25240-ASM", "Milled Starburst Ball Marker"),
  ("A-ZNP53374-1", "Darkness Leather Wrapped Divot Tool"),
  ("A-JT-4697", "Darkness Alignment Stick Cover - Black"),
  ("A-1IBM65819PXGCAT", "Copper Cactus Ball Marker"),
  ("A-Q23192-ASM-2", "Chrome Logo Ball Marker"),
  ("A-Q25645-ASM-1", "2025 Stars & Stripes Ball Marker"),
  ("A-1IBM65820PXG-DT", "2023 Darkness Dog Tag Ball Marker"),
  ("G4-652011019LHL-BLK", "Men\x27s LH Players Glove - Black L"),
  ("G4-652011019LHLC-BLK", "Men\x27s LH Players Glove - Cadet Black L"),
  ("G4-652011019LHLW-BLK", "Men\x27s LH Players Glove - White L"),
  ("G4-652011019LHM-BLK", "Men\x27s LH Players Glove - Black M"),
  ("G4-652011019LHMC-BLK", "Men\x27s LH Players Glove - Cadet Black M"),
  ("G4-652011019LHML-BLK", "Men\x27s LH Players Glove - Black ML"),
  ("G4-652011019LHMLC-BLK", "Men\x27s LH Players Glove - Cadet Black ML"),
  ("G4-652011019LHMW-BLK", "Women\x27s LH Players Glove - Black M"),
  ("G4-652011019LHS-BLK", "Men\x27s LH Players Glove - Black S"),
  ("G4-652011019LHSC-BLK", "Men\x27s LH Players Glove - Cadet Black S"),
  ("G4-652011019LHSW-BLK", "Men\x27s LH Players Glove - White S"),
  ("G4-652011019LHXL-BLK", "Men\x27s LH Players Glove - Black XL"),
  ("G4-652011019LHXLC-BLK", "Men\x27s LH Players Glove - Cadet Black XL"),
  ("G4-652011019RHL-BLK", "Men\x27s RH Players Glove - Black L"),
  ("G4-652011019RHLC-BLK", "Men\x27s RH Players Glove - Cadet Black L"),
  ("G4-652011019RHM-BLK", "Men\x27s RH Players Glove - Black M"),
  ("G4-652011019RHMC-BLK", "Men\x27s RH Players Glove - Cadet Black M"),
  ("G4-652011019RHML-BLK", "Men\x27s RH Players Glove - Black ML"),
  ("G4-652011019RHMLC-BLK", "Men\x27s RH Players Glove - Cadet Black ML"),
  ("G4-652011019RHS-BLK", "Men\x27s RH Players Glove - Black S"),
  ("G4-652011019RHSC-BLK", "Men\x27s RH Players Glove - Cadet Black S"),
  ("G4-652011019RHXL-BLK", "Men\x27s RH Players Glove - Black XL"),
  ("G4-652011019RHXLC-BLK", "Men\x27s RH Players Glove - Cadet Black XL"),
  ("G4-652011019RHXXL-BLK", "Men\x27s RH Players Glove - Black XXL"),
  ("G4-652021019LHL-WHT", "Men\x27s LH Players Glove - White L"),
  ("G4-652021019LHLC-WHT", "Men\x27s LH Players Glove - Cadet White L"),
  ("G4-652021019LHLW-WHT", "Men\x27s LH Players Glove - White L"),
  ("G4-652021019LHM-WHT", "Men\x27s LH Players Glove - White M"),
  ("G4-652021019LHMC-WHT", "Men\x27s LH Players Glove - Cadet White M"),
  ("G4-652021019LHML-WHT", "Men\x27s LH Players Glove - White ML"),
  ("G4-652021019LHMLC-WHT", "Men\x27s LH Players Glove - Cadet White ML"),
  ("G4-652021019LHMW-WHT", "Women\x27s LH Players Glove - White M"),
  ("G4-652021019LHS-WHT", "Men\x27s LH Players Glove - White S"),
  ("G4-652021019LHSC-WHT", "Men\x27s LH Players Glove - Cadet White S"),
  ("G4-652021019LHSW-WHT", "Men\x27s LH Players Glove - White S"),
  ("G4-652021019LHXL-WHT", "Men\x27s LH Players Glove - White XL"),
  ("G4-652021019LHXLC-WHT", "Men\x27s LH Players Glove - Cadet White XL"),
  ("G4-652021019LHXXL-WHT", "Men\x27s LH Players Glove - White XXL"),
  ("G4-652021019RHL-WHT", "Men\x27s RH Players Glove - White L"),
  ("G4-652021019RHLC-WHT", "Men\x27s RH Players Glove - Cadet White L"),
  ("G4-652021019RHLW-WHT", "Men\x27s RH Players Glove - White L"),
  ("G4-652021019RHM-WHT", "Men\x27s RH Players Glove - White M"),
  ("G4-652021019RHMC-WHT", "Men\x27s RH Players Glove - Cadet White M"),
  ("G4-652021019RHML-WHT", "Men\x27s RH Players Glove - White ML"),
  ("G4-652021019RHMLC-WHT", "Men\x27s RH Players Glove - Cadet White ML"),
  ("G4-652021019RHMW-WHT", "Women\x27s RH Players Glove - White M"),
  ("G4-652021019RHS-WHT", "Men\x27s RH Players Glove - White S"),
  ("G4-652021019RHSC-WHT", "Men\x27s RH Players Glove - Cadet White S"),
  ("G4-652021019RHSW-WHT", "Men\x27s RH Players Glove - White S"),
  ("G4-652021019RHXL-WHT", "Men\x27s RH Players Glove - White XL"),
  ("G4-652021019RHXLC-WHT", "Men\x27s RH Players Glove - Cadet White XL"),
  ("G4-652021019RHXXL-WHT", "Men\x27s RH Players Glove - White XXL")
]

/-- The catalog keys, in dict order (`PART_DESCRIPTIONS.keys()`). -/
def PART_KEYS : List String := PART_DESCRIPTIONS.map (fun kv => kv.1)

/-- Catalog lookup; `k in PART_DESCRIPTIONS` is `(lookupDesc k).isSome`. -/
def lookupDesc (k : String) : Option String := lookupA PART_DESCRIPTIONS k

/-- Stable insertion into a length-descending list: the new element goes after
every element of length `≥` its own, so equal lengths keep original order. -/
def insertByLen (x : String) : List String → List String
  | [] => [x]
  | y :: ys => if x.length ≤ y.length then y :: insertByLen x ys else x :: y :: ys

/-- `sorted(keys, key=len, reverse=True)` — Python's sort is stable, and
`reverse=True` keeps equal-length keys in dict order. -/
def sortByLenDesc (l : List String) : List String :=
  l.foldl (fun acc x => insertByLen x acc) []

/-- `all_part_keys_sorted` of `extract_part_numbers`. -/
def all_part_keys_sorted : List String := sortByLenDesc PART_KEYS

/-- The chained comparison `prev_start <= start < end <= prev_end` against any
previously recorded range (the Python code keeps `matched_ranges` sorted, but
the shadow test scans the whole list, so order is irrelevant to it). -/
def shadowed (ranges : List (Nat × Nat)) (s e : Nat) : Bool :=
  ranges.any (fun r => r.1 ≤ s && s < e && e ≤ r.2)

/-- `matched_ranges.append(..)` followed by `matched_ranges.sort()`:
insert keeping the list sorted lexicographically. -/
def insertRange : List (Nat × Nat) → Nat × Nat → List (Nat × Nat)
  | [], r => [r]
  | x :: xs, r =>
    if r.1 < x.1 || (r.1 == x.1 && r.2 ≤ x.2) then r :: x :: xs
    else x :: insertRange xs r

/-- The body of the inner loop of `extract_part_numbers` for one match `m` of
one catalog key: skip the match if it is shadowed by an earlier recorded
range, otherwise count the key once (both branches of the source — exact match
and prefix-with-suffix match — increment the same key) and record the range. -/
def processStep (t : List Char) (key : String)
    (st : List (Nat × Nat) × List (String × Int)) (m : Nat × Nat) :
    List (Nat × Nat) × List (String × Int) :=
  if shadowed st.1 m.1 m.2 then st
  else if (t.drop m.1).take (m.2 - m.1) = key.data then
    (insertRange st.1 m, incrCount st.2 key 1)
  else if key.data.isPrefixOf ((t.drop m.1).take (m.2 - m.1))
      && (lookupDesc key).isSome then
    (insertRange st.1 m, incrCount st.2 key 1)
  else st

/-- The inner loop of `extract_part_numbers` for one catalog key: iterate the
matches of `\b<key>\S*` in the upper-cased text through `processStep`. -/
def processKey (t : List Char) (st : List (Nat × Nat) × List (String × Int))
    (key : String) : List (Nat × Nat) × List (String × Int) :=
  (reScan t key.data true (fun c => !isSpaceP c)).foldl (processStep t key) st

/-- `extract_part_numbers` without its final `G4-6520` glove block: the main
loop over the length-sorted catalog keys. -/
def extract_part_numbers_main (text : String) : List (String × Int) :=
  (all_part_keys_sorted.foldl (processKey (toUpperL text.data)) ([], [])).2

/-- The matched substrings of the supplemental glove pattern
`(G4-6520[^\s\-]*)` (the `re.IGNORECASE` flag is inert: the subject
`text.upper()` contains no lowercase letters). -/
def gloveScan (t : List Char) : List (List Char) :=
  (reScan t "G4-6520".data false (fun c => !isSpaceP c && !(c == '-'))).map
    (fun m => (t.drop m.1).take (m.2 - m.1))

/-- The final glove block of `extract_part_numbers`: every glove-pattern match
whose text is a catalog key gets one more count. -/
def applyGloveCounts (t : List Char) (cs : List (String × Int)) : List (String × Int) :=
  (gloveScan t).foldl
    (fun cs m =>
      let code := String.mk m
      if (lookupDesc code).isSome then incrCount cs code 1 else cs)
    cs

/-- `extract_part_numbers(text)`: the main length-sorted shadowing loop over
the upper-cased text, then the supplemental `G4-6520` glove search. -/
def extract_part_numbers (text : String) : List (String × Int) :=
  applyGloveCounts (toUpperL text.data) (extract_part_numbers_main text)

/-- Substring containment (Python `needle in haystack`). -/
def containsSub (needle : List Char) : List Char → Bool
  | [] => needle.isPrefixOf []
  | l@(_ :: rest) => needle.isPrefixOf l || containsSub needle rest

/-- `classify_item(item_code, item_description)`: the ordered rule chain over
the upper-cased inputs (balls, caps, gloves, accessories, catch-all). -/
def classify_item (item_code item_description : String) : String :=
  let c := toUpperL item_code.data
  let d := toUpperL item_description.data
  if "GB-DOZ-".data.isPrefixOf c || containsSub "GOLF BALL".data d then "Pelotas"
  else if "H-".data.isPrefixOf c || (containsSub "HAT".data d || containsSub "CAP".data d) then
    "Gorras"
  else if "G4-".data.isPrefixOf c then "Guantes"
  else if "A-".data.isPrefixOf c || "HC-".data.isPrefixOf c then "Accesorios"
  else "Otros"

/-- `\b` after a greedy numeric run: the next character (if any) is not a word
character.  Shorter backtracked runs always end between two digits, so only
the maximal run can close the match. -/
def boundaryAfter : List Char → Bool
  | [] => true
  | c :: _ => !isWordChar c

/-- One alternative of `ORDER_REGEX = \b(SO-|USS|SOC|AMZ)-?(\d+)\b` tried at
the head of `l`: the literal alternative, then the greedy optional hyphen
(preferring to consume it; the zero-width fallback then needs a digit right
after the alternative, which the consumed `-` is not), then `\d+\b`.
Returns the two capture groups. -/
def altOrderAt (l : List Char) (alt : List Char) : Option (List Char × List Char) :=
  if alt.isPrefixOf l then
    let l2 := l.drop alt.length
    match l2 with
    | '-' :: l3 =>
      let ds := l3.takeWhile Char.isDigit
      if ds.length ≥ 1 && boundaryAfter (l3.drop ds.length) then some (alt, ds) else none
    | _ =>
      let ds := l2.takeWhile Char.isDigit
      if ds.length ≥ 1 && boundaryAfter (l2.drop ds.length) then some (alt, ds) else none
  else none

/-- `ORDER_REGEX` attempted at one position (`prev` is the character before
it, for the leading `\b`); alternatives are tried left to right. -/
def matchOrderAt (prev : Option Char) (l : List Char) : Option (List Char × List Char) :=
  if prev.all (fun c => !isWordChar c) then
    match altOrderAt l "SO-".data with
    | some r => some r
    | none =>
      match altOrderAt l "USS".data with
      | some r => some r
      | none =>
        match altOrderAt l "SOC".data with
        | some r => some r
        | none => altOrderAt l "AMZ".data
  else none

/-- `SHIPMENT_REGEX = \b(SH\d{5,})\b` attempted at one position; the group is
the whole matched identifier. -/
def matchShipAt (prev : Option Char) (l : List Char) : Option (List Char) :=
  if prev.all (fun c => !isWordChar c) then
    if "SH".data.isPrefixOf l then
      let ds := (l.drop 2).takeWhile Char.isDigit
      if ds.length ≥ 5 && boundaryAfter ((l.drop 2).drop ds.length) then
        some ("SH".data ++ ds)
      else none
    else none
  else none

/-- `re.search`: first position (left to right) where the matcher succeeds. -/
def searchWithPrev {α : Type} (p : Option Char → List Char → Option α) :
    Option Char → List Char → Option α
  | prev, [] => p prev []
  | prev, l@(c :: rest) =>
    match p prev l with
    | some r => some r
    | none => searchWithPrev p (some c) rest

/-- `str.rstrip('-')`. -/
def dropTrailingHyphens (l : List Char) : List Char :=
  (l.reverse.dropWhile (fun c => c == '-')).reverse

/-- `extract_identifiers(text)`: order id rebuilt as
`group(1).rstrip('-') + '-' + group(2)`, shipment id as the matched text;
`None` for an absent match. -/
def extract_identifiers (text : String) : Option String × Option String :=
  let l := text.data
  let o := searchWithPrev matchOrderAt none l
  let s := searchWithPrev matchShipAt none l
  (o.map (fun r => String.mk (dropTrailingHyphens r.1 ++ '-' :: r.2)),
   s.map String.mk)

/-- A denormalized relation row (`{"Orden", "Código", "Descripción", "SH"}`);
the id fields keep the caller-supplied optional values. -/
structure Relation where
  orden : Option String
  codigo : String
  descripcion : String
  sh : Option String
deriving DecidableEq, Repr

/-- Python truthiness of an optional string: `None` and `""` are falsy. -/
def truthyOpt : Option String → Bool
  | none => false
  | some s => !(s == "")

/-- The main loop of `extract_relations`: one pass over the catalog in dict
order, appending a row for each key whose pattern `\b<key>\S*` is found in the
upper-cased text, provided both ids are truthy. -/
def main_relations (text : String) (order_id shipment_id : Option String) :
    List Relation :=
  PART_DESCRIPTIONS.filterMap
    (fun kv =>
      if !(reScan (toUpperL text.data) kv.1.data true (fun c => !isSpaceP c)).isEmpty
          && truthyOpt order_id && truthyOpt shipment_id then
        some ⟨order_id, kv.1, kv.2, shipment_id⟩
      else none)

/-- The supplemental glove block of `extract_relations`: pattern `(G4-6520\S*)`
(note `\S*`, not `[^\s\-]*` — hyphens are allowed here), one extra row per
match whose text is a catalog key, with no truthiness guard on the ids. -/
def glove_relations (text : String) (order_id shipment_id : Option String) :
    List Relation :=
  (reScan (toUpperL text.data) "G4-6520".data false (fun c => !isSpaceP c)).filterMap
    (fun m =>
      match lookupDesc (String.mk (((toUpperL text.data).drop m.1).take (m.2 - m.1))) with
      | some d =>
        some ⟨order_id, String.mk (((toUpperL text.data).drop m.1).take (m.2 - m.1)), d,
          shipment_id⟩
      | none => none)

/-- `extract_relations(text, order_id, shipment_id)`: the catalog pass, then
the supplemental glove pass. -/
def extract_relations (text : String) (order_id shipment_id : Option String) :
    List Relation :=
  main_relations text order_id shipment_id ++ glove_relations text order_id shipment_id

/-- `SHIPPING_2DAY_REGEX = Shipping\s*Method:\s*2\s*day` (IGNORECASE) tried at
one position of the upper-cased text.  Each literal after a `\s*` starts with
a non-space character, so the greedy maximal space run is the only viable
backtrack point. -/
def match2dayAt (l : List Char) : Bool :=
  if "SHIPPING".data.isPrefixOf l then
    let l2 := (l.drop 8).dropWhile isSpaceP
    if "METHOD:".data.isPrefixOf l2 then
      let l3 := (l2.drop 7).dropWhile isSpaceP
      if "2".data.isPrefixOf l3 then
        "DAY".data.isPrefixOf ((l3.drop 1).dropWhile isSpaceP)
      else false
    else false
  else false

/-- Boolean `re.search` for a matcher that needs no look-behind. -/
def searchAnywhere (p : List Char → Bool) : List Char → Bool
  | [] => p []
  | l@(_ :: rest) => p l || searchAnywhere p rest

/-- `SHIPPING_2DAY_REGEX.search(text)` as a Boolean. -/
def search2day (text : String) : Bool :=
  searchAnywhere match2dayAt (toUpperL text.data)

/-- `PICKUP_REGEX = Customer\s*Pickup|Cust\s*Pickup|CUSTPICKUP` (IGNORECASE)
tried at one position of the upper-cased text. -/
def matchPickupAt (l : List Char) : Bool :=
  ("CUSTOMER".data.isPrefixOf l && "PICKUP".data.isPrefixOf ((l.drop 8).dropWhile isSpaceP))
  || ("CUST".data.isPrefixOf l && "PICKUP".data.isPrefixOf ((l.drop 4).dropWhile isSpaceP))
  || "CUSTPICKUP".data.isPrefixOf l

/-- `PICKUP_REGEX.search(text)` as a Boolean. -/
def searchPickup (text : String) : Bool :=
  searchAnywhere matchPickupAt (toUpperL text.data)

/-- One page record built by `parse_pdf` (the `parent` document handle of the
source is a PDF-library object and is not part of the data model). -/
structure PageData where
  number : Nat
  order_id : Option String
  shipment_id : Option String
  part_numbers : List (String × Int)
  text : String
deriving DecidableEq, Repr

/-- The page loop of `parse_pdf`, with the three accumulators it builds:
page records, relation rows (extended only when both ids are truthy), and the
set of two-day shipment ids (kept as a duplicate-free list in insertion
order). -/
def parse_pdf_aux (pages : List PageData) (rels : List Relation)
    (td : List String) (n : Nat) : List String → List PageData × List Relation × List String
  | [] => (pages, rels, td)
  | text :: rest =>
    let ids := extract_identifiers text
    let pn := extract_part_numbers text
    let td2 :=
      if truthyOpt ids.2 && search2day text then
        match ids.2 with
        | some s => if td.contains s then td else td ++ [s]
        | none => td
      else td
    let page : PageData := ⟨n, ids.1, ids.2, pn, text⟩
    let rels2 :=
      if truthyOpt ids.1 && truthyOpt ids.2 then
        rels ++ extract_relations text ids.1 ids.2
      else rels
    parse_pdf_aux (pages ++ [page]) rels2 td2 (n + 1) rest

/-- `parse_pdf` over the sequence of page texts (PDF opening and per-page text
extraction are the PDF-library collaborator; the loop body is embedded
verbatim). -/
def parse_pdf (texts : List String) : List PageData × List Relation × List String :=
  parse_pdf_aux [] [] [] 0 texts

/-- One order accumulator of `group_by_order`
(`{"pages": [], "pickup": False, "part_numbers": defaultdict(int)}`). -/
structure OrderAcc where
  pages : List PageData
  pickup : Bool
  part_numbers : List (String × Int)
deriving DecidableEq, Repr

/-- The `defaultdict` default accumulator. -/
def emptyAcc : OrderAcc := ⟨[], false, []⟩

/-- `for part_num, qty in page["part_numbers"].items(): d[part_num] += qty`. -/
def addCounts (cs : List (String × Int)) (ps : List (String × Int)) : List (String × Int) :=
  ps.foldl (fun cs kv => incrCount cs kv.1 kv.2) cs

/-- One iteration of the `group_by_order` loop: skip a falsy order id
(`None` or `""`), otherwise append the page, optionally OR in the pickup
match, and fold the page's per-code counts into the accumulator. -/
def stepOrder (cp : Bool) (m : List (String × OrderAcc)) (p : PageData) :
    List (String × OrderAcc) :=
  match p.order_id with
  | none => m
  | some oid =>
    if oid = "" then m
    else
      let acc := (lookupA m oid).getD emptyAcc
      let acc := { acc with pages := acc.pages ++ [p] }
      let acc := if cp && searchPickup p.text then { acc with pickup := true } else acc
      let acc := { acc with part_numbers := addCounts acc.part_numbers p.part_numbers }
      updateA m oid acc

/-- The fold of `group_by_order` from an arbitrary intermediate state. -/
def group_by_order_aux (cp : Bool) (m : List (String × OrderAcc)) :
    List PageData → List (String × OrderAcc)
  | [] => m
  | p :: rest => group_by_order_aux cp (stepOrder cp m p) rest

/-- `group_by_order(pages, classify_pickup)` (the source defaults
`classify_pickup` to `False`; here it is always passed explicitly). -/
def group_by_order (pages : List PageData) (cp : Bool) : List (String × OrderAcc) :=
  group_by_order_aux cp [] pages

/-- `order_map[oid]["part_numbers"][x]`, with the `defaultdict` zero default
for a missing order or code. -/
def partCountOf (m : List (String × OrderAcc)) (oid x : String) : Int :=
  getCount ((lookupA m oid).getD emptyAcc).part_numbers x

/-- `order_map[oid]["pickup"]`, defaulting to `False` for a missing order. -/
def pickupOf (m : List (String × OrderAcc)) (oid : String) : Bool :=
  ((lookupA m oid).getD emptyAcc).pickup



/-! ### Helper lemmas about the association-list and scanning primitives -/

theorem lookupA_updateA_self {α : Type} (m : List (String × α)) (k : String) (v : α) :
    lookupA (updateA m k v) k = some v := by
  induction m with
  | nil => simp [updateA, lookupA]
  | cons kv rest ih =>
    obtain ⟨k', v'⟩ := kv
    by_cases h : k' = k
    · simp [updateA, h, lookupA]
    · simp [updateA, h, lookupA, ih]

theorem lookupA_updateA_ne {α : Type} (m : List (String × α)) (k k' : String) (v : α)
    (h : k' ≠ k) : lookupA (updateA m k v) k' = lookupA m k' := by
  induction m with
  | nil => simp [updateA, lookupA, Ne.symm h]
  | cons kv rest ih =>
    obtain ⟨k0, v0⟩ := kv
    by_cases h0 : k0 = k
    · subst h0
      have hne : ¬(k0 = k') := fun hh => h hh.symm
      simp [updateA, lookupA, hne]
    · simp [updateA, lookupA, h0, ih]

theorem lookupA_some_mem {α : Type} (l : List (String × α)) (k : String) (v : α)
    (h : lookupA l k = some v) : k ∈ l.map (fun kv => kv.1) := by
  induction l with
  | nil => simp [lookupA] at h
  | cons kv rest ih =>
    obtain ⟨k', v'⟩ := kv
    by_cases hk : k' = k
    · subst hk; simp
    · simp only [lookupA, if_neg hk] at h
      simpa using Or.inr (ih h)

theorem getCount_incrCount (cs : List (String × Int)) (k x : String) (q : Int) :
    getCount (incrCount cs k q) x = getCount cs x + (if x = k then q else 0) := by
  induction cs with
  | nil =>
    by_cases h : k = x
    · subst h; simp [incrCount, getCount, lookupA]
    · have h' : ¬(x = k) := fun hh => h hh.symm
      simp [incrCount, getCount, lookupA, h, h']
  | cons kv rest ih =>
    obtain ⟨k', v⟩ := kv
    by_cases h : k' = k
    · subst h
      by_cases h2 : k' = x
      · subst h2; simp [incrCount, getCount, lookupA]
      · have h2' : ¬(x = k') := fun hh => h2 hh.symm
        simp [incrCount, getCount, lookupA, h2, h2']
    · by_cases h2 : k' = x
      · subst h2
        simp [incrCount, getCount, lookupA, h]
      · simp only [incrCount, if_neg h, getCount, lookupA, if_neg h2]
        exact ih

theorem getCount_addCounts_ge (x : String) :
    ∀ (ps cs : List (String × Int)), (∀ kv ∈ ps, (0 : Int) ≤ kv.2) →
      getCount cs x ≤ getCount (addCounts cs ps) x := by
  intro ps
  induction ps with
  | nil => intro cs _; exact le_refl _
  | cons kv ps ih =>
    intro cs h
    have hstep : addCounts cs (kv :: ps) = addCounts (incrCount cs kv.1 kv.2) ps := rfl
    rw [hstep]
    have h1 : getCount cs x ≤ getCount (incrCount cs kv.1 kv.2) x := by
      rw [getCount_incrCount]
      have hq := h kv (List.mem_cons_self _ _)
      by_cases hx : x = kv.1
      · rw [if_pos hx]; omega
      · rw [if_neg hx]; omega
    exact le_trans h1 (ih _ (fun kv' h' => h kv' (List.mem_cons_of_mem _ h')))

theorem isPrefixOf_drop_append : ∀ (l1 l2 : List Char), l1.isPrefixOf l2 = true →
    l2 = l1 ++ l2.drop l1.length := by
  intro l1
  induction l1 with
  | nil => intro l2 _; simp
  | cons a as ih =>
    intro l2 h
    cases l2 with
    | nil => simp [List.isPrefixOf] at h
    | cons b bs =>
      simp only [List.isPrefixOf, Bool.and_eq_true, beq_iff_eq] at h
      obtain ⟨rfl, h2⟩ := h
      simpa using ih bs h2

theorem take_len_append : ∀ (a b : List Char) (n : Nat),
    (a ++ b).take (a.length + n) = a ++ b.take n := by
  intro a
  induction a with
  | nil => intro b n; simp
  | cons x xs ih =>
    intro b n
    have hlen : (x :: xs).length + n = (xs.length + n) + 1 := by
      simp [Nat.succ_add]
    rw [hlen]
    simp only [List.cons_append, List.take_succ_cons]
    rw [ih]

theorem take_takeWhile (p : Char → Bool) : ∀ l : List Char,
    l.take (l.takeWhile p).length = l.takeWhile p := by
  intro l
  induction l with
  | nil => simp
  | cons a as ih =>
    by_cases h : p a
    · simp [List.takeWhile_cons, h, ih]
    · simp [List.takeWhile_cons, h]

theorem mem_takeWhile_sat {p : Char → Bool} {c : Char} : ∀ {l : List Char},
    c ∈ l.takeWhile p → p c = true := by
  intro l
  induction l with
  | nil => intro h; simp [List.takeWhile] at h
  | cons a as ih =>
    intro h
    by_cases hp : p a
    · rw [List.takeWhile_cons, if_pos hp] at h
      rcases List.mem_cons.mp h with rfl | h
      · exact hp
      · exact ih h
    · rw [List.takeWhile_cons, if_neg hp] at h
      simp at h

theorem isPrefixOf_append_self : ∀ (a b : List Char), a.isPrefixOf (a ++ b) = true := by
  intro a
  induction a with
  | nil => intro b; simp [List.isPrefixOf]
  | cons x xs ih => intro b; simp [List.isPrefixOf, ih]

theorem scanAux_sound (t key : List Char) (bnd : Bool) (ext : Char → Bool) :
    ∀ (fuel i s e : Nat), (s, e) ∈ scanAux t key bnd ext fuel i →
      (bnd = true → boundaryAt t s = true)
      ∧ key.isPrefixOf (t.drop s) = true
      ∧ e = s + key.length + ((t.drop (s + key.length)).takeWhile ext).length := by
  intro fuel
  induction fuel with
  | zero => intro i s e h; simp [scanAux] at h
  | succ fuel ih =>
    intro i s e h
    simp only [scanAux] at h
    split at h
    · split at h
      · rename_i hlt hcond
        rcases List.mem_cons.mp h with h1 | h2
        · obtain ⟨hs, he⟩ := Prod.mk.injEq .. ▸ h1
          subst hs; subst he
          rw [Bool.and_eq_true] at hcond
          refine ⟨?_, hcond.2, rfl⟩
          intro hb
          rcases Bool.or_eq_true _ _ |>.mp hcond.1 with h' | h'
          · rw [hb] at h'; simp at h'
          · exact h'
        · exact ih _ _ _ h2
      · exact ih _ _ _ h
    · simp at h

/-! ### The supplemental glove block of `extract_part_numbers` is inert -/

theorem glove_keys_have_second_hyphen :
    ∀ k ∈ PART_KEYS, "G4-6520".data.isPrefixOf k.data = true →
      (k.data.drop 7).any (fun c => c == '-') = true := by decide

theorem gloveScan_shape (t : List Char) :
    ∀ m ∈ gloveScan t, ∃ tail : List Char,
      m = "G4-6520".data ++ tail ∧ ∀ c ∈ tail, (!isSpaceP c && !(c == '-')) = true := by
  intro m hm
  unfold gloveScan at hm
  rw [List.mem_map] at hm
  obtain ⟨⟨s, e⟩, hmem, rfl⟩ := hm
  obtain ⟨-, hpre, he⟩ := scanAux_sound t "G4-6520".data false _ t.length 0 s e hmem
  refine ⟨(t.drop (s + 7)).takeWhile (fun c => !isSpaceP c && !(c == '-')), ?_, ?_⟩
  · have hd : t.drop s = "G4-6520".data ++ (t.drop s).drop 7 :=
      isPrefixOf_drop_append _ _ hpre
    have hdd : (t.drop s).drop 7 = t.drop (s + 7) := by
      rw [List.drop_drop, Nat.add_comm]
    rw [show ("G4-6520".data).length = 7 from rfl] at he
    have hsub : e - s = 7 + ((t.drop (s + 7)).takeWhile (fun c => !isSpaceP c && !(c == '-'))).length := by
      omega
    rw [hsub]
    conv =>
      lhs
      rw [hd, hdd]
    rw [show (7 : Nat) = ("G4-6520".data).length from rfl]
    rw [take_len_append, take_takeWhile]
  · intro c hc
    exact mem_takeWhile_sat hc

theorem gloveScan_no_catalog (t : List Char) :
    ∀ m ∈ gloveScan t, lookupDesc (String.mk m) = none := by
  intro m hm
  obtain ⟨tail, rfl, htail⟩ := gloveScan_shape t m hm
  cases hlk : lookupDesc (String.mk ("G4-6520".data ++ tail)) with
  | none => rfl
  | some d =>
    exfalso
    have hmemk : String.mk ("G4-6520".data ++ tail) ∈ PART_KEYS :=
      lookupA_some_mem PART_DESCRIPTIONS _ d hlk
    have hpre : "G4-6520".data.isPrefixOf (String.mk ("G4-6520".data ++ tail)).data = true :=
      isPrefixOf_append_self _ _
    have hhyp := glove_keys_have_second_hyphen _ hmemk hpre
    have hdrop : (String.mk ("G4-6520".data ++ tail)).data.drop 7 = tail := by
      rw [show (String.mk ("G4-6520".data ++ tail)).data = "G4-6520".data ++ tail from rfl]
      rw [show (7 : Nat) = ("G4-6520".data).length from rfl]
      exact List.drop_left _ _
    rw [hdrop] at hhyp
    rw [List.any_eq_true] at hhyp
    obtain ⟨c, hc, hcdash⟩ := hhyp
    have hcd : c = '-' := by
      have := beq_iff_eq.mp hcdash
      exact this
    subst hcd
    have := htail '-' hc
    simp at this

theorem foldGlove_id :
    ∀ (ms : List (List Char)) (cs : List (String × Int)),
      (∀ m ∈ ms, lookupDesc (String.mk m) = none) →
      ms.foldl
        (fun cs m =>
          if (lookupDesc (String.mk m)).isSome then incrCount cs (String.mk m) 1 else cs)
        cs = cs := by
  intro ms
  induction ms with
  | nil => intro cs _; rfl
  | cons m ms ih =>
    intro cs h
    rw [List.foldl_cons]
    have hm := h m (List.mem_cons_self _ _)
    rw [hm]
    simp only [Option.isSome_none, Bool.false_eq_true, if_false]
    exact ih cs (fun m' hm' => h m' (List.mem_cons_of_mem _ hm'))

theorem applyGloveCounts_id (t : List Char) (cs : List (String × Int)) :
    applyGloveCounts t cs = cs :=
  foldGlove_id (gloveScan t) cs (gloveScan_no_catalog t)

theorem extract_eq_main (text : String) :
    extract_part_numbers text = extract_part_numbers_main text := by
  unfold extract_part_numbers
  exact applyGloveCounts_id _ _

/-! ### Counts produced by the main loop come from boundary-anchored matches -/

theorem processStep_snd (t : List Char) (key : String)
    (st : List (Nat × Nat) × List (String × Int)) (m : Nat × Nat) :
    (processStep t key st m).2 = st.2 ∨ (processStep t key st m).2 = incrCount st.2 key 1 := by
  unfold processStep
  split
  · exact Or.inl rfl
  · split
    · exact Or.inr rfl
    · split
      · exact Or.inr rfl
      · exact Or.inl rfl

theorem getCount_foldl_processStep (t : List Char) (key k : String) (hk : k ≠ key) :
    ∀ (ms : List (Nat × Nat)) (st : List (Nat × Nat) × List (String × Int)),
      getCount ((ms.foldl (processStep t key) st).2) k = getCount st.2 k := by
  intro ms
  induction ms with
  | nil => intro st; rfl
  | cons m ms ih =>
    intro st
    rw [List.foldl_cons, ih]
    rcases processStep_snd t key st m with h | h
    · rw [h]
    · rw [h, getCount_incrCount, if_neg hk]
      omega

theorem count_pos_foldl_keys (t : List Char) (k : String) :
    ∀ (keys : List String) (st : List (Nat × Nat) × List (String × Int)),
      0 < getCount ((keys.foldl (processKey t) st).2) k →
      0 < getCount st.2 k ∨ reScan t k.data true (fun c => !isSpaceP c) ≠ [] := by
  intro keys
  induction keys with
  | nil => intro st h; exact Or.inl h
  | cons key keys ih =>
    intro st h
    rw [List.foldl_cons] at h
    rcases ih (processKey t st key) h with h2 | h2
    · by_cases hk : k = key
      · subst hk
        cases hscan : reScan t k.data true (fun c => !isSpaceP c) with
        | nil =>
          left
          have hid : processKey t st k = st := by
            unfold processKey
            rw [hscan]
            rfl
          rwa [hid] at h2
        | cons a as =>
          right
          simp [hscan]
      · left
        have heq := getCount_foldl_processStep t key k hk
          (reScan t key.data true (fun c => !isSpaceP c)) st
        unfold processKey at h2
        rwa [heq] at h2
    · exact Or.inr h2

/-! ### `parse_pdf` attributes order ids purely page-locally -/

theorem parse_pdf_aux_orderids :
    ∀ (texts : List String) (pages : List PageData) (rels : List Relation)
      (td : List String) (n : Nat),
      ((parse_pdf_aux pages rels td n texts).1).map (fun p => p.order_id)
        = pages.map (fun p => p.order_id)
          ++ texts.map (fun t => (extract_identifiers t).1) := by
  intro texts
  induction texts with
  | nil => intro pages rels td n; simp [parse_pdf_aux]
  | cons text rest ih =>
    intro pages rels td n
    simp only [parse_pdf_aux]
    rw [ih]
    simp [List.map_append]

/-! ### `group_by_order` step lemmas -/

theorem stepOrder_some (cp : Bool) (m : List (String × OrderAcc)) (p : PageData)
    (oid : String) (h1 : p.order_id = some oid) (hoid : ¬(oid = "")) :
    stepOrder cp m p = updateA m oid
      { pages := ((lookupA m oid).getD emptyAcc).pages ++ [p]
        pickup := if cp && searchPickup p.text then true
                  else ((lookupA m oid).getD emptyAcc).pickup
        part_numbers := addCounts ((lookupA m oid).getD emptyAcc).part_numbers
                          p.part_numbers } := by
  unfold stepOrder
  rw [h1]
  simp only [hoid, if_false]
  cases hb : cp && searchPickup p.text <;> simp [hb]

theorem stepOrder_skip (cp : Bool) (m : List (String × OrderAcc)) (p : PageData)
    (h : truthyOpt p.order_id = false) : stepOrder cp m p = m := by
  unfold stepOrder
  cases ho : p.order_id with
  | none => rfl
  | some s =>
    rw [ho] at h
    simp only [truthyOpt] at h
    have hs : s = "" := by
      cases hbe : (s == "") with
      | true => exact beq_iff_eq.mp hbe
      | false => rw [hbe] at h; simp at h
    subst hs
    simp

theorem partCountOf_updateA_self (m : List (String × OrderAcc)) (oid x : String)
    (acc : OrderAcc) :
    partCountOf (updateA m oid acc) oid x = getCount acc.part_numbers x := by
  unfold partCountOf
  rw [lookupA_updateA_self]
  rfl

theorem partCountOf_updateA_ne (m : List (String × OrderAcc)) (oid x s : String)
    (acc : OrderAcc) (h : oid ≠ s) :
    partCountOf (updateA m s acc) oid x = partCountOf m oid x := by
  unfold partCountOf
  rw [lookupA_updateA_ne _ _ _ _ h]

theorem pickupOf_updateA_self (m : List (String × OrderAcc)) (oid : String)
    (acc : OrderAcc) : pickupOf (updateA m oid acc) oid = acc.pickup := by
  unfold pickupOf
  rw [lookupA_updateA_self]
  rfl

theorem pickupOf_updateA_ne (m : List (String × OrderAcc)) (oid s : String)
    (acc : OrderAcc) (h : oid ≠ s) :
    pickupOf (updateA m s acc) oid = pickupOf m oid := by
  unfold pickupOf
  rw [lookupA_updateA_ne _ _ _ _ h]

theorem getCount_addCounts_absent (x : String) :
    ∀ (ps cs : List (String × Int)), x ∉ ps.map (fun kv => kv.1) →
      getCount (addCounts cs ps) x = getCount cs x := by
  intro ps
  induction ps with
  | nil => intro cs _; rfl
  | cons kv ps ih =>
    intro cs h
    simp only [List.map_cons, List.mem_cons, not_or] at h
    obtain ⟨hx, hrest⟩ := h
    rw [show addCounts cs (kv :: ps) = addCounts (incrCount cs kv.1 kv.2) ps from rfl]
    rw [ih _ hrest, getCount_incrCount, if_neg hx]
    omega

theorem getCount_addCounts_indicator (x : String) :
    ∀ (ps cs : List (String × Int)), lookupA ps x = some 1 →
      (ps.map (fun kv => kv.1)).Nodup →
      getCount (addCounts cs ps) x = getCount cs x + 1 := by
  intro ps
  induction ps with
  | nil => intro cs h _; simp [lookupA] at h
  | cons kv ps ih =>
    intro cs h hnd
    obtain ⟨k, v⟩ := kv
    rw [show addCounts cs ((k, v) :: ps) = addCounts (incrCount cs k v) ps from rfl]
    simp only [List.map_cons, List.nodup_cons] at hnd
    obtain ⟨hnotin, hnd2⟩ := hnd
    have hlk : lookupA ((k, v) :: ps) x = if k = x then some v else lookupA ps x := rfl
    by_cases hk : k = x
    · have hv : v = 1 := by
        rw [hlk, if_pos hk] at h
        exact Option.some.inj h
      have hxn : x ∉ ps.map (fun kv => kv.1) := hk ▸ hnotin
      rw [getCount_addCounts_absent x ps (incrCount cs k v) hxn]
      rw [getCount_incrCount, if_pos hk.symm, hv]
    · have hrest : lookupA ps x = some 1 := by
        rw [hlk, if_neg hk] at h
        exact h
      rw [ih (incrCount cs k v) hrest hnd2]
      rw [getCount_incrCount, if_neg (fun hh => hk hh.symm)]
      omega

theorem partCountOf_stepOrder_indicator (cp : Bool) (m : List (String × OrderAcc))
    (p : PageData) (oid x : String) (hoid : oid ≠ "")
    (h1 : p.order_id = some oid) (h2 : lookupA p.part_numbers x = some 1)
    (h3 : (p.part_numbers.map (fun kv => kv.1)).Nodup) :
    partCountOf (stepOrder cp m p) oid x = partCountOf m oid x + 1 := by
  rw [stepOrder_some cp m p oid h1 hoid, partCountOf_updateA_self]
  dsimp only
  rw [getCount_addCounts_indicator x p.part_numbers _ h2 h3]
  rfl

theorem partCountOf_group_aux (cp : Bool) (oid x : String) (hoid : oid ≠ "") :
    ∀ (pages : List PageData) (m : List (String × OrderAcc)),
      (∀ p ∈ pages, p.order_id = some oid ∧ lookupA p.part_numbers x = some 1
        ∧ (p.part_numbers.map (fun kv => kv.1)).Nodup) →
      partCountOf (group_by_order_aux cp m pages) oid x
        = partCountOf m oid x + pages.length := by
  intro pages
  induction pages with
  | nil => intro m _; simp [group_by_order_aux]
  | cons p rest ih =>
    intro m h
    obtain ⟨h1, h2, h3⟩ := h p (List.mem_cons_self _ _)
    simp only [group_by_order_aux]
    rw [ih _ (fun q hq => h q (List.mem_cons_of_mem _ hq))]
    rw [partCountOf_stepOrder_indicator cp m p oid x hoid h1 h2 h3]
    simp only [List.length_cons]
    push_cast
    ring

theorem group_by_order_aux_skip (cp : Bool) (q : PageData)
    (h : truthyOpt q.order_id = false) :
    ∀ (as bs : List PageData) (m : List (String × OrderAcc)),
      group_by_order_aux cp m (as ++ q :: bs) = group_by_order_aux cp m (as ++ bs) := by
  intro as
  induction as with
  | nil =>
    intro bs m
    simp only [List.nil_append, group_by_order_aux, stepOrder_skip cp m q h]
  | cons a as ih =>
    intro bs m
    simp only [List.cons_append, group_by_order_aux]
    exact ih bs _

theorem partCountOf_stepOrder_ge (cp : Bool) (m : List (String × OrderAcc))
    (p : PageData) (oid x : String)
    (hp : ∀ kv ∈ p.part_numbers, (0 : Int) ≤ kv.2) :
    partCountOf m oid x ≤ partCountOf (stepOrder cp m p) oid x := by
  cases ho : p.order_id with
  | none =>
    rw [stepOrder_skip cp m p (by rw [ho]; rfl)]
  | some s =>
    by_cases hs : s = ""
    · rw [stepOrder_skip cp m p (by rw [ho, hs]; rfl)]
    · rw [stepOrder_some cp m p s ho hs]
      by_cases hso : s = oid
      · subst hso
        rw [partCountOf_updateA_self]
        dsimp only
        unfold partCountOf
        exact getCount_addCounts_ge x p.part_numbers
          ((lookupA m s).getD emptyAcc).part_numbers hp
      · rw [partCountOf_updateA_ne _ _ _ _ _ (fun hh => hso hh.symm)]

theorem pickupOf_stepOrder_mono (cp : Bool) (m : List (String × OrderAcc))
    (p : PageData) (oid : String) (h : pickupOf m oid = true) :
    pickupOf (stepOrder cp m p) oid = true := by
  cases ho : p.order_id with
  | none =>
    rw [stepOrder_skip cp m p (by rw [ho]; rfl)]
    exact h
  | some s =>
    by_cases hs : s = ""
    · rw [stepOrder_skip cp m p (by rw [ho, hs]; rfl)]
      exact h
    · rw [stepOrder_some cp m p s ho hs]
      by_cases hso : s = oid
      · subst hso
        rw [pickupOf_updateA_self]
        dsimp only
        unfold pickupOf at h
        cases hb : cp && searchPickup p.text
        · simp only [Bool.false_eq_true, if_false]
          exact h
        · simp
      · rw [pickupOf_updateA_ne _ _ _ _ (fun hh => hso hh.symm)]
        exact h

/-! ### The main loop of `extract_relations` emits at most one row per code -/

theorem filterMap_row_codes_sublist (f : String × String → Option Relation)
    (hf : ∀ kv r, f kv = some r → r.codigo = kv.1) :
    ∀ l : List (String × String),
      List.Sublist ((l.filterMap f).map (fun r => r.codigo)) (l.map (fun kv => kv.1)) := by
  intro l
  induction l with
  | nil => simp
  | cons kv rest ih =>
    cases hfa : f kv with
    | none =>
      rw [List.filterMap_cons_none hfa]
      exact List.Sublist.cons _ ih
    | some r =>
      rw [List.filterMap_cons_some hfa]
      rw [List.map_cons, List.map_cons, hf kv r hfa]
      exact List.Sublist.cons₂ _ ih

theorem PART_KEYS_nodup : PART_KEYS.Nodup := by decide

/-! ### Claim theorems -/

/-- C1: the claim (and the docstring of `extract_part_numbers`) says a code
present as a standalone token is reported with occurrence value exactly 1 even
when it occurs at several independent positions.  The code instead increments
once per non-shadowed match: on a page with the same standalone code at two
independent positions the reported value is 2, a raw frequency. -/
theorem extract_part_numbers_counts_occurrences :
    extract_part_numbers "B-PG-244 B-PG-244" = [("B-PG-244", 2)] := by decide

/-- C2 (amended): `parse_pdf` applies no carry-forward — every page's order id
comes from that page's text alone, and a page whose text yields no identifier
is recorded with `order_id = None` (and is later skipped by aggregation); in
particular, in the three-page example P2 is attributed to no order. -/
theorem parse_pdf_no_carry_forward :
    (∀ texts : List String,
      ((parse_pdf texts).1).map (fun p => p.order_id)
        = texts.map (fun t => (extract_identifiers t).1))
    ∧ ((parse_pdf ["SO-100 build sheet", "continuation page", "SO-200 build sheet"]).1).map
        (fun p => p.order_id) = [some "SO-100", none, some "SO-200"] := by
  have hgen : ∀ texts : List String,
      ((parse_pdf texts).1).map (fun p => p.order_id)
        = texts.map (fun t => (extract_identifiers t).1) := by
    intro texts
    unfold parse_pdf
    rw [parse_pdf_aux_orderids]
    simp
  refine ⟨hgen, ?_⟩
  rw [hgen]
  decide

/-- C2 counterexample: in the three-page example the middle page (index 1) is
recorded with order id `none`, not `some "SO-100"` — the claimed carry-forward
does not happen. -/
theorem parse_pdf_page_without_id_gets_none :
    ((((parse_pdf ["SO-100 build sheet", "continuation page", "SO-200 build sheet"]).1).map
        (fun p => p.order_id)).get? 1 = some none)
    ∧ ¬ ((((parse_pdf ["SO-100 build sheet", "continuation page", "SO-200 build sheet"]).1).map
        (fun p => p.order_id)).get? 1 = some (some "SO-100")) := by
  unfold parse_pdf
  rw [parse_pdf_aux_orderids]
  exact ⟨by decide, by decide⟩

/-- C3 (amended): a standalone occurrence of "B-PG-172-BGRY" is counted under
the longer code, once per occurrence, and that occurrence never yields a
"B-PG-172" entry (the shorter code's match at the same position is shadowed):
on a page whose only token is one "B-PG-172-BGRY" the result is exactly
`{"B-PG-172-BGRY": 1}`, and with two such tokens it is `{"B-PG-172-BGRY": 2}`,
in both cases without "B-PG-172". -/
theorem longer_code_shadows_shorter_code :
    extract_part_numbers " B-PG-172-BGRY " = [("B-PG-172-BGRY", 1)]
    ∧ extract_part_numbers "B-PG-172-BGRY B-PG-172-BGRY" = [("B-PG-172-BGRY", 2)] :=
  ⟨by decide, by decide⟩

/-- C3 counterexample: for a page text containing "B-PG-172-BGRY" as a
standalone token (twice) together with an independent standalone "B-PG-172",
the result maps "B-PG-172-BGRY" to 2 (not 1) and does contain "B-PG-172" —
both the "value 1" part and the "does not contain" part of the claim fail on
such texts. -/
theorem extract_part_numbers_bgry_not_presence :
    extract_part_numbers "B-PG-172-BGRY B-PG-172-BGRY B-PG-172"
      = [("B-PG-172-BGRY", 2), ("B-PG-172", 1)] := by decide

/-- C4 (amended): only the left delimiter is enforced.  A code is counted only
where it occurs at a position preceded by a non-word character (or at the
start of the text); the pattern's trailing `\S*` means adjacent word
characters AFTER the code do not prevent the match.  In particular
"XB-PG-172X" (left boundary broken) still yields no match at all. -/
theorem extract_part_numbers_left_boundary_only :
    (∀ text k : String, 0 < getCount (extract_part_numbers text) k →
      ∃ i, boundaryAt (toUpperL text.data) i = true
        ∧ k.data.isPrefixOf ((toUpperL text.data).drop i) = true)
    ∧ extract_part_numbers "XB-PG-172X" = [] := by
  constructor
  · intro text k h
    rw [extract_eq_main] at h
    unfold extract_part_numbers_main at h
    rcases count_pos_foldl_keys (toUpperL text.data) k all_part_keys_sorted ([], []) h
      with h2 | h2
    · simp [getCount, lookupA] at h2
    · unfold reScan at h2
      obtain ⟨⟨s, e⟩, hm⟩ := List.exists_mem_of_ne_nil _ h2
      obtain ⟨hb, hp, -⟩ := scanAux_sound (toUpperL text.data) k.data true
        (fun c => !isSpaceP c) ((toUpperL text.data).length) 0 s e hm
      exact ⟨s, hb rfl, hp⟩
  · decide

/-- C4 witness: "B-PG-244" as the whole page text is counted, and therefore
has a left-boundary occurrence. -/
theorem extract_part_numbers_left_boundary_only_witness :
    0 < getCount (extract_part_numbers "B-PG-244") "B-PG-244"
    ∧ ∃ i, boundaryAt (toUpperL "B-PG-244".data) i = true
        ∧ "B-PG-244".data.isPrefixOf ((toUpperL "B-PG-244".data).drop i) = true :=
  ⟨by decide, extract_part_numbers_left_boundary_only.1 "B-PG-244" "B-PG-244" (by decide)⟩

/-- C4 counterexample: "B-PG-172X" — the code embedded with an adjacent word
character on its right only — is still matched and counted, refuting the
claimed requirement of non-word characters on BOTH sides. -/
theorem extract_part_numbers_trailing_word_char_matches :
    extract_part_numbers "B-PG-172X" = [("B-PG-172", 1)] := by decide

/-- C5: `classify_item` is total — its result is always one of the five fixed
category labels — and the ball rule is evaluated first: any code whose
upper-cased form starts with the dozen-ball family prefix "GB-DOZ-" is
classified "Pelotas" regardless of the description.  (Determinism is inherent:
the embedding is a pure function of its two string arguments.) -/
theorem classify_item_total_ball_rule_first :
    ∀ code desc : String,
      (classify_item code desc = "Pelotas" ∨ classify_item code desc = "Gorras"
        ∨ classify_item code desc = "Guantes" ∨ classify_item code desc = "Accesorios"
        ∨ classify_item code desc = "Otros")
      ∧ ("GB-DOZ-".data.isPrefixOf (toUpperL code.data) = true →
          classify_item code desc = "Pelotas") := by
  intro code desc
  constructor
  · simp only [classify_item]
    split
    · exact Or.inl rfl
    · split
      · exact Or.inr (Or.inl rfl)
      · split
        · exact Or.inr (Or.inr (Or.inl rfl))
        · split
          · exact Or.inr (Or.inr (Or.inr (Or.inl rfl)))
          · exact Or.inr (Or.inr (Or.inr (Or.inr rfl)))
  · intro h
    simp [classify_item, h]

/-- C5 witness: a dozen-ball code with a hat-like description is still
classified "Pelotas". -/
theorem classify_item_total_ball_rule_first_witness :
    "GB-DOZ-".data.isPrefixOf (toUpperL "GB-DOZ-XTREME".data) = true
    ∧ classify_item "GB-DOZ-XTREME" "BUCKET HAT" = "Pelotas" :=
  ⟨by decide, (classify_item_total_ball_rule_first "GB-DOZ-XTREME" "BUCKET HAT").2 (by decide)⟩

/-- C6: `group_by_order` skips every page whose order id is falsy (removing
such a page anywhere in the sequence leaves the result unchanged), and for N
pages all bearing the same order id, each carrying indicator 1 for code X in
its part-number mapping (a dict, so keys are unique; entries for other codes
may be present as well), the accumulated `partCounts[X]` is exactly N. -/
theorem group_by_order_skips_and_sums :
    (∀ (cp : Bool) (oid x : String) (pages : List PageData), oid ≠ "" →
      (∀ p ∈ pages, p.order_id = some oid ∧ lookupA p.part_numbers x = some 1
        ∧ (p.part_numbers.map (fun kv => kv.1)).Nodup) →
      partCountOf (group_by_order pages cp) oid x = (pages.length : Int))
    ∧ (∀ (cp : Bool) (q : PageData) (as bs : List PageData),
      truthyOpt q.order_id = false →
      group_by_order (as ++ q :: bs) cp = group_by_order (as ++ bs) cp) := by
  constructor
  · intro cp oid x pages hoid hp
    unfold group_by_order
    rw [partCountOf_group_aux cp oid x hoid pages [] hp]
    simp [partCountOf, getCount, lookupA, emptyAcc]
  · intro cp q as bs h
    unfold group_by_order
    exact group_by_order_aux_skip cp q h as bs []

/-- C6 witness: two pages of order "SO-1", each with indicator 1 for
"B-PG-244" — the second also carrying another code — accumulate to 2. -/
theorem group_by_order_skips_and_sums_witness :
    ("SO-1" : String) ≠ ""
    ∧ partCountOf (group_by_order
        [⟨0, some "SO-1", none, [("B-PG-244", 1)], "page one"⟩,
         ⟨1, some "SO-1", none, [("GB-DOZ-XTREME", 1), ("B-PG-244", 1)], "page two"⟩]
        false) "SO-1" "B-PG-244"
      = ((2 : Nat) : Int) :=
  ⟨by decide,
   group_by_order_skips_and_sums.1 false "SO-1" "B-PG-244"
     [⟨0, some "SO-1", none, [("B-PG-244", 1)], "page one"⟩,
      ⟨1, some "SO-1", none, [("GB-DOZ-XTREME", 1), ("B-PG-244", 1)], "page two"⟩]
     (by decide) (by decide)⟩

/-- C7 (amended): the catalog pass of `extract_relations` emits at most one
row per code from a single page (its code column is duplicate-free), and the
full result is that pass followed by the supplemental `G4-6520\S*` glove pass
— which can emit a second row for the same (order, code) pair when the page
contains a catalog glove code. -/
theorem extract_relations_unique_codes_main_loop :
    (∀ (text : String) (oid sid : Option String),
      ((main_relations text oid sid).map (fun r => r.codigo)).Nodup)
    ∧ (∀ (text : String) (oid sid : Option String),
      extract_relations text oid sid
        = main_relations text oid sid ++ glove_relations text oid sid) := by
  constructor
  · intro text oid sid
    have hsub := filterMap_row_codes_sublist
      (fun kv =>
        if !(reScan (toUpperL text.data) kv.1.data true (fun c => !isSpaceP c)).isEmpty
            && truthyOpt oid && truthyOpt sid then
          some ⟨oid, kv.1, kv.2, sid⟩
        else none)
      (fun kv r h => by
        dsimp only at h
        by_cases hc : (!(reScan (toUpperL text.data) kv.1.data true
            (fun c => !isSpaceP c)).isEmpty && truthyOpt oid && truthyOpt sid) = true
        · rw [if_pos hc] at h
          cases h
          rfl
        · rw [if_neg hc] at h
          cases h)
      PART_DESCRIPTIONS
    exact List.Nodup.sublist hsub PART_KEYS_nodup
  · intro text oid sid
    rfl

/-- C7 counterexample: a page containing the catalog glove code
"G4-652011019LHL-BLK" with both ids present produces TWO identical rows for
the same (order, code) pair — one from the catalog pass and one from the
supplemental glove pass. -/
theorem extract_relations_duplicate_glove_rows :
    extract_relations " G4-652011019LHL-BLK " (some "SO-1") (some "SH12345")
      = [⟨some "SO-1", "G4-652011019LHL-BLK", "Men\x27s LH Players Glove - Black L",
          some "SH12345"⟩,
         ⟨some "SO-1", "G4-652011019LHL-BLK", "Men\x27s LH Players Glove - Black L",
          some "SH12345"⟩] := by decide

/-- C8: throughout the fold of `group_by_order` (from any intermediate
accumulator state), when every per-code indicator on the pages is
non-negative, each order's `partCounts[code]` never decreases, and the
`pickup` flag is monotonic — once true it is never reset. -/
theorem group_by_order_fold_invariants :
    ∀ (cp : Bool) (m : List (String × OrderAcc)) (pages : List PageData) (oid x : String),
      (∀ p ∈ pages, ∀ kv ∈ p.part_numbers, (0 : Int) ≤ kv.2) →
      partCountOf m oid x ≤ partCountOf (group_by_order_aux cp m pages) oid x
      ∧ (pickupOf m oid = true → pickupOf (group_by_order_aux cp m pages) oid = true) := by
  intro cp m pages
  induction pages generalizing m with
  | nil => intro oid x _; exact ⟨le_refl _, fun hh => hh⟩
  | cons p rest ih =>
    intro oid x h
    simp only [group_by_order_aux]
    obtain ⟨ih1, ih2⟩ := ih (stepOrder cp m p) oid x
      (fun q hq => h q (List.mem_cons_of_mem _ hq))
    refine ⟨le_trans ?_ ih1, fun hp => ih2 ?_⟩
    · exact partCountOf_stepOrder_ge cp m p oid x
        (fun kv hkv => h p (List.mem_cons_self _ _) kv hkv)
    · exact pickupOf_stepOrder_mono cp m p oid hp

/-- C8 witness: starting from an accumulator with count 4 and pickup already
true, folding one pickup page with indicator 1 keeps the count ≥ 4 and the
pickup flag true. -/
theorem group_by_order_fold_invariants_witness :
    partCountOf [("SO-9", ⟨[], true, [("B-PG-244", 4)]⟩)] "SO-9" "B-PG-244"
      ≤ partCountOf (group_by_order_aux true [("SO-9", ⟨[], true, [("B-PG-244", 4)]⟩)]
          [⟨0, some "SO-9", none, [("B-PG-244", 1)], "Customer Pickup"⟩]) "SO-9" "B-PG-244"
    ∧ pickupOf (group_by_order_aux true [("SO-9", ⟨[], true, [("B-PG-244", 4)]⟩)]
        [⟨0, some "SO-9", none, [("B-PG-244", 1)], "Customer Pickup"⟩]) "SO-9" = true :=
  ⟨(group_by_order_fold_invariants true [("SO-9", ⟨[], true, [("B-PG-244", 4)]⟩)]
      [⟨0, some "SO-9", none, [("B-PG-244", 1)], "Customer Pickup"⟩] "SO-9" "B-PG-244"
      (by decide)).1,
   (group_by_order_fold_invariants true [("SO-9", ⟨[], true, [("B-PG-244", 4)]⟩)]
      [⟨0, some "SO-9", none, [("B-PG-244", 1)], "Customer Pickup"⟩] "SO-9" "B-PG-244"
      (by decide)).2 (by decide)⟩

/-- C9: the extraction functions are total and represent absence by
empty/default values: `extract_part_numbers("")` is the empty mapping,
`classify_item("", "")` is the catch-all "Otros", `group_by_order([])` is the
empty mapping, and each identifier field of `extract_identifiers` is `None`
exactly when its regex has no match. -/
theorem extraction_functions_empty_defaults :
    extract_part_numbers "" = []
    ∧ classify_item "" "" = "Otros"
    ∧ (∀ cp : Bool, group_by_order [] cp = [])
    ∧ ∀ text : String,
        (searchWithPrev matchOrderAt none text.data = none →
          (extract_identifiers text).1 = none)
        ∧ (searchWithPrev matchShipAt none text.data = none →
          (extract_identifiers text).2 = none) := by
  refine ⟨by decide, by decide, fun cp => rfl, fun text => ⟨fun h => ?_, fun h => ?_⟩⟩
  · simp [extract_identifiers, h]
  · simp [extract_identifiers, h]

/-- C9 witness: a text with no identifiers yields `None` for the order id
without raising. -/
theorem extraction_functions_empty_defaults_witness :
    searchWithPrev matchOrderAt none "plain continuation text".data = none
    ∧ (extract_identifiers "plain continuation text").1 = none :=
  ⟨by decide,
   (extraction_functions_empty_defaults.2.2.2 "plain continuation text").1 (by decide)⟩

/-- C10: the supplemental `G4-6520[^\s\-]*` glove block at the end of
`extract_part_numbers` never increments any count — its matches cannot contain
a hyphen after the "G4-6520" stem while every G4 catalog key does — so the
function is extensionally equal to the same function with the glove block
removed (`extract_part_numbers_main`). -/
theorem extract_part_numbers_glove_block_inert :
    ∀ text : String, extract_part_numbers text = extract_part_numbers_main text :=
  fun text => extract_eq_main text
